import Mathlib

/-!
Verification development for the roster-processing pipeline
(`process_roster.py`).

The program reads one flat roster CSV, groups rows by team, computes two
derived ratings per player, reconciles five "protected" fields against any
previously written per-team CSV, sorts each team's players by rating
(descending, stable) and rewrites the per-team files.

Shallow-embedding conventions used throughout:
* CSV rows are records of `String` fields.  Rows of a previously written
  team file are read through Python's `dict.get`, which distinguishes an
  absent key from a present-but-empty value, so those rows use
  `Option String` fields (`none` = key absent).
* Python's `int(s)` is modelled by `pyInt` (decimal digits with an
  optional leading minus sign); a field that is absent where the program
  indexes it unconditionally, or that fails integer parsing, is modelled
  as a string on which `pyInt` returns `none`, and the resulting
  `ValueError` is modelled by propagating `Option.none` / `Except.error`.
* `math.floor((a + b + c) / 3)` (float division followed by floor) is
  modelled as the exact floor division `Int.fdiv (a + b + c) 3`.
* Python's `list.sort(key=..., reverse=True)` is a stable sort by the
  reversed key order; it is modelled by `List.insertionSort` (also a
  stable sort) with the relation "left element has rating ≥ right
  element's rating".  The sort key `int(x['rating'])` raises on a
  non-integer rating, modelled by an explicit all-ratings-parse check.
* The filesystem is a map from written file identifier (the team code)
  to file contents; `print` diagnostics that the claims mention are
  collected in lists (apostrophes and quoting of the original message
  text are not reproduced).
-/

/-- A row of the master roster CSV (`temp.csv`), as produced by
`csv.DictReader`: all columns of the header are present as strings. -/

structure SourceRow where
  team : String
  name : String
  position : String
  overallAttribute : String
  closeShot : String
  midRangeShot : String
  threePointShot : String
  freeThrow : String
  interiorDefense : String
  perimeterDefense : String
  offensiveRebound : String
  defensiveRebound : String
  passAccuracy : String
  passIQ : String
  passVision : String
  steal : String
  block : String
  layup : String
  standingDunk : String
  drivingDunk : String
  speed : String
  agility : String
  strength : String
  vertical : String
  stamina : String
  hustle : String
  overallDurability : String
  offensiveConsistency : String
  defensiveConsistency : String
  drawFoul : String
deriving DecidableEq, Repr

/-- The processed output record (`processed_data` in `process_player`):
25 fields, all strings, in the fixed output column order. -/
structure ProcessedPlayer where
  name : String
  englishName : String
  position : String
  playerType : String
  rotationType : String
  rating : String
  insideRating : String
  midRating : String
  threeRating : String
  freeThrowPercent : String
  interiorDefense : String
  perimeterDefense : String
  orbRating : String
  drbRating : String
  astRating : String
  stlRating : String
  blkRating : String
  layupRating : String
  standDunk : String
  drivingDunk : String
  athleticism : String
  durability : String
  offConst : String
  defConst : String
  drawFoul : String
deriving DecidableEq, Repr, Inhabited

/-- A row of an existing team CSV as seen by `read_existing_team_data`.
Only the five fields the function touches are modelled; each is
`Option String` because the function reads them with `row.get`, which
distinguishes an absent key (`none`) from a present value. -/
structure ExistingRow where
  name : Option String
  englishName : Option String
  position : Option String
  playerType : Option String
  rotationType : Option String
deriving DecidableEq, Repr

/-- The five protected fields preserved for one existing player
(a value of the dictionary built by `read_existing_team_data`). -/
structure ProtectedData where
  name : String
  englishName : String
  position : String
  playerType : String
  rotationType : String
deriving DecidableEq, Repr

/-- Value of a list of decimal digit characters; `none` as soon as a
non-digit character occurs. -/
def digitsVal (l : List Char) : Option Nat :=
  l.foldl
    (fun acc c =>
      match acc with
      | none => none
      | some n => if c.isDigit then some (n * 10 + (c.toNat - 48)) else none)
    (some 0)

/-- Python's `int(s)` on the strings this pipeline feeds it: an optional
leading minus sign followed by decimal digits; anything else raises
`ValueError`, modelled as `none`. -/
def pyInt (s : String) : Option Int :=
  match s.data with
  | [] => none
  | '-' :: rest =>
    if rest.isEmpty then none
    else (digitsVal rest).map (fun n => -(n : Int))
  | l => (digitsVal l).map (fun n => (n : Int))

/-- `row.get('englishName', row.get('name', ''))`: the reconciliation key
of an existing row.  The fallback to `name` happens only when the
`englishName` key is absent, not when it is present but empty. -/
def rowKey (r : ExistingRow) : String :=
  match r.englishName with
  | some e => e
  | none => r.name.getD ""

/-- The protected-field record stored for an existing row:
each field read with `row.get(field, '')`. -/
def protectedOf (r : ExistingRow) : ProtectedData :=
  { name := r.name.getD ""
    englishName := r.englishName.getD ""
    position := r.position.getD ""
    playerType := r.playerType.getD ""
    rotationType := r.rotationType.getD "" }

/-- One step of the loop body of `read_existing_team_data`: insert the
row under its key into the dictionary, skipping rows whose key is the
empty string (`if english_name:` is false on `''`). -/
def indexStep (info : String → Option ProtectedData) (r : ExistingRow) :
    String → Option ProtectedData :=
  if rowKey r = "" then info
  else fun s => if s = rowKey r then some (protectedOf r) else info s

/-- `read_existing_team_data`: builds the player-info dictionary from the
rows of the existing team file; `none` models a file that does not exist
(the function then returns the empty dictionary). -/
def read_existing_team_data (file : Option (List ExistingRow)) :
    String → Option ProtectedData :=
  match file with
  | none => fun _ => none
  | some rows => rows.foldl indexStep (fun _ => none)

/-- `process_player`: parses the nine numeric fields, computes the two
derived ratings with floor division, and projects the fixed output
record.  A parse failure (Python `ValueError`) is `none`. -/
def process_player (row : SourceRow) : Option ProcessedPlayer :=
  match pyInt row.passAccuracy, pyInt row.passIQ, pyInt row.passVision,
      pyInt row.speed, pyInt row.agility, pyInt row.strength,
      pyInt row.vertical, pyInt row.stamina, pyInt row.hustle with
  | some pass_accuracy, some pass_iq, some pass_vision,
    some speed, some agility, some strength,
    some vertical, some stamina, some hustle =>
    let ast_rating : Int := Int.fdiv (pass_accuracy + pass_iq + pass_vision) 3
    let athleticism : Int :=
      Int.fdiv (speed + agility + strength + vertical + stamina + hustle) 6
    some
      { name := row.name
        englishName := row.name
        position := row.position
        playerType := ""
        rotationType := ""
        rating := row.overallAttribute
        insideRating := row.closeShot
        midRating := row.midRangeShot
        threeRating := row.threePointShot
        freeThrowPercent := row.freeThrow
        interiorDefense := row.interiorDefense
        perimeterDefense := row.perimeterDefense
        orbRating := row.offensiveRebound
        drbRating := row.defensiveRebound
        astRating := toString ast_rating
        stlRating := row.steal
        blkRating := row.block
        layupRating := row.layup
        standDunk := row.standingDunk
        drivingDunk := row.drivingDunk
        athleticism := toString athleticism
        durability := row.overallDurability
        offConst := row.offensiveConsistency
        defConst := row.defensiveConsistency
        drawFoul := row.drawFoul }
  | _, _, _, _, _, _, _, _, _ => none

/-- The reconciliation step inside the player loop of `process_roster`:
if the source row's display name is a key of the existing-player
dictionary, the five protected fields are overwritten from it. -/
def reconcile (info : String → Option ProtectedData) (row : SourceRow)
    (p : ProcessedPlayer) : ProcessedPlayer :=
  match info row.name with
  | some ex =>
    { p with name := ex.name, englishName := ex.englishName,
             position := ex.position, playerType := ex.playerType,
             rotationType := ex.rotationType }
  | none => p

/-- The player loop of `process_roster` for one team: process each row in
order, reconcile it, and collect the results; the first parse failure
aborts the run. -/
def processPlayers (info : String → Option ProtectedData) :
    List SourceRow → Option (List ProcessedPlayer)
  | [] => some []
  | r :: rs =>
    match process_player r with
    | none => none
    | some p =>
      match processPlayers info rs with
      | none => none
      | some ps => some (reconcile info r p :: ps)

/-- The integer sort key `int(x['rating'])` (total function used by the
sort; `processTeam` separately checks that every rating parses). -/
def ratingInt (p : ProcessedPlayer) : Int :=
  (pyInt p.rating).getD 0

/-- The order the descending stable sort establishes: the left element's
rating is at least the right element's, as integers. -/
def ratingGe (a b : ProcessedPlayer) : Prop :=
  ratingInt b ≤ ratingInt a

instance : DecidableRel ratingGe := fun a b =>
  inferInstanceAs (Decidable (ratingInt b ≤ ratingInt a))

instance : IsTotal ProcessedPlayer ratingGe :=
  ⟨fun a b => le_total (ratingInt b) (ratingInt a)⟩

instance : IsTrans ProcessedPlayer ratingGe :=
  ⟨fun _ _ _ h1 h2 => le_trans h2 h1⟩

/-- `processed_players.sort(key=lambda x: int(x['rating']), reverse=True)`:
Python's stable sort, modelled by `List.insertionSort` (a stable sort)
with the descending rating order. -/
def sortByRatingDesc (l : List ProcessedPlayer) : List ProcessedPlayer :=
  List.insertionSort ratingGe l

/-- Processing of one mapped team inside `process_roster`: read the
existing file, process and reconcile every player, and sort; the sort's
key function raises on a non-integer rating, so the result exists only
when every rating parses. -/
def processTeam (existing : Option (List ExistingRow))
    (players : List SourceRow) : Option (List ProcessedPlayer) :=
  match processPlayers (read_existing_team_data existing) players with
  | none => none
  | some ps =>
    if ps.all (fun p => (pyInt p.rating).isSome) then
      some (sortByRatingDesc ps)
    else none

/-- `TEAM_MAPPING`: the fixed full-team-name → team-code table. -/
def TEAM_MAPPING : List (String × String) :=
  [("Atlanta Hawks", "Hawks"),
   ("Boston Celtics", "Celtics"),
   ("Brooklyn Nets", "Nets"),
   ("Charlotte Hornets", "Hornets"),
   ("Chicago Bulls", "Bulls"),
   ("Cleveland Cavaliers", "Cavaliers"),
   ("Dallas Mavericks", "Mavericks"),
   ("Denver Nuggets", "Nuggets"),
   ("Detroit Pistons", "Pistons"),
   ("Golden State Warriors", "Warriors"),
   ("Houston Rockets", "Rockets"),
   ("Indiana Pacers", "Pacers"),
   ("Los Angeles Clippers", "Clippers"),
   ("Los Angeles Lakers", "Lakers"),
   ("Memphis Grizzlies", "Grizzlies"),
   ("Miami Heat", "Heat"),
   ("Milwaukee Bucks", "Bucks"),
   ("Minnesota Timberwolves", "Timberwolves"),
   ("New Orleans Pelicans", "Pelicans"),
   ("New York Knicks", "Knicks"),
   ("Oklahoma City Thunder", "Thunder"),
   ("Orlando Magic", "Magic"),
   ("Philadelphia 76ers", "76ers"),
   ("Phoenix Suns", "Suns"),
   ("Portland Trail Blazers", "Trail Blazers"),
   ("Sacramento Kings", "Kings"),
   ("San Antonio Spurs", "Spurs"),
   ("Toronto Raptors", "Raptors"),
   ("Utah Jazz", "Jazz"),
   ("Washington Wizards", "Wizards")]

/-- `team_full_name in TEAM_MAPPING` / `TEAM_MAPPING[team_full_name]`:
lookup of a team's code, `none` when the name is unmapped. -/
def teamLookup (team : String) : Option String :=
  (TEAM_MAPPING.find? (fun p => p.1 = team)).map (fun p => p.2)

/-- `players_by_team` construction: group the input rows by their `team`
field, preserving within-team row order and first-seen team order
(insertion order of a Python dict). -/
def groupByTeam (rows : List SourceRow) : List (String × List SourceRow) :=
  rows.foldl
    (fun acc r =>
      if acc.any (fun p => p.1 = r.team) then
        acc.map (fun p => if p.1 = r.team then (p.1, p.2 ++ [r]) else p)
      else acc ++ [(r.team, [r])])
    []

/-- The observable outcome of a completed `process_roster` run: the files
written, in order, as (team code, contents), and the warning messages
printed for unmapped teams. -/
structure RunResult where
  writes : List (String × List ProcessedPlayer)
  warnings : List String
deriving DecidableEq, Repr

/-- The per-team loop of `process_roster` over the grouped input.  A
mapped team is processed and its file written; an unmapped team only
emits a warning; an unhandled `ValueError` aborts the run, and the
`error` value carries the files already written before the failure. -/
def runTeams (fs : String → Option (List ExistingRow)) :
    List (String × List SourceRow) →
    Except (List (String × List ProcessedPlayer)) RunResult
  | [] => Except.ok { writes := [], warnings := [] }
  | (team, players) :: rest =>
    match teamLookup team with
    | some code =>
      match processTeam (fs code) players with
      | some out =>
        match runTeams fs rest with
        | Except.ok r =>
          Except.ok { writes := (code, out) :: r.writes, warnings := r.warnings }
        | Except.error ws => Except.error ((code, out) :: ws)
      | none => Except.error []
    | none =>
      match runTeams fs rest with
      | Except.ok r =>
        Except.ok { writes := r.writes,
                    warnings := ("Warning: No mapping found for team " ++ team) :: r.warnings }
      | Except.error ws => Except.error ws

/-- `process_roster`: group the input rows by team and run the per-team
loop. -/
def process_roster (fs : String → Option (List ExistingRow))
    (input : List SourceRow) :
    Except (List (String × List ProcessedPlayer)) RunResult :=
  runTeams fs (groupByTeam input)

/-- Outcome of `main`: the diagnostic messages printed before any
processing, and the processing result (`none` when `main` returned
before calling `process_roster`). -/
structure MainOutcome where
  messages : List String
  result : Option (Except (List (String × List ProcessedPlayer)) RunResult)

/-- `main`: if the input file does not exist (`input = none`), print one
diagnostic and return without any processing; otherwise run
`process_roster` on the parsed input rows.  (Named `mainRun` because Lean
reserves `main` for an `IO` entry point.) -/
def mainRun (input : Option (List SourceRow))
    (fs : String → Option (List ExistingRow)) : MainOutcome :=
  match input with
  | none =>
    { messages := ["Error: Input file public/data/rosters/temp.csv not found!"]
      result := none }
  | some rows =>
    { messages := [], result := some (process_roster fs rows) }

/-- Rereading a row that this program just wrote: `csv.DictWriter` wrote
all 25 columns, so all five protected keys are present on reread. -/
def toExistingRow (p : ProcessedPlayer) : ExistingRow :=
  { name := some p.name
    englishName := some p.englishName
    position := some p.position
    playerType := some p.playerType
    rotationType := some p.rotationType }

/-- A concrete source row used by the closed witness statements. -/
def baseRow : SourceRow :=
  { team := "Atlanta Hawks", name := "A", position := "PG",
    overallAttribute := "80", closeShot := "81", midRangeShot := "82",
    threePointShot := "83", freeThrow := "84", interiorDefense := "85",
    perimeterDefense := "86", offensiveRebound := "87", defensiveRebound := "88",
    passAccuracy := "70", passIQ := "70", passVision := "71",
    steal := "89", block := "90", layup := "91", standingDunk := "92",
    drivingDunk := "93", speed := "80", agility := "80", strength := "80",
    vertical := "80", stamina := "80", hustle := "85",
    overallDurability := "94", offensiveConsistency := "95",
    defensiveConsistency := "96", drawFoul := "97" }

/-- The processed output of `baseRow` (evaluated form, used by witnesses). -/
def basePlayer : ProcessedPlayer :=
  (process_player baseRow).getD default

/-- A concrete previously written row matching `baseRow` by key "A",
with manually curated protected fields. -/
def c1ex : ExistingRow :=
  { name := some "Alpha", englishName := some "A", position := some "SG",
    playerType := some "Starter", rotationType := some "Rot8" }

/-! ## C2: key selection when building the reconciliation index -/

/-- A previously written row with a present-but-empty `englishName` and a
non-empty `name`. -/
def c2blank : ExistingRow :=
  { name := some "Bob", englishName := some "", position := some "PG",
    playerType := some "Starter", rotationType := some "Rot8" }

/-- A second concrete previously written row, keyed under "Ann". -/
def c2ann : ExistingRow :=
  { name := some "Ann", englishName := some "Ann", position := some "C",
    playerType := some "Bench", rotationType := some "Deep" }

/-- The earlier duplicate of the key "Ann". -/
def c10first : ExistingRow :=
  { name := some "Ann", englishName := some "Ann", position := some "PF",
    playerType := some "Starter", rotationType := some "Core" }

/-- Concrete team: ratings "9", "10", "9"; "10" must sort above both
"9"s and the two "9"s must keep their input order. -/
def c4r1 : SourceRow :=
  { baseRow with name := "B", overallAttribute := "9" }

def c4r2 : SourceRow :=
  { baseRow with name := "C", overallAttribute := "10" }

def c4r3 : SourceRow :=
  { baseRow with name := "D", overallAttribute := "9" }

/-- The pre-sort sequence of the concrete team. -/
def c4pre : List ProcessedPlayer :=
  (processPlayers (read_existing_team_data none) [c4r1, c4r2, c4r3]).getD []

/-- The output sequence of the concrete team. -/
def c4out : List ProcessedPlayer :=
  (processTeam none [c4r1, c4r2, c4r3]).getD []

/-! ## Observers and composition lemmas for `runTeams` -/

/-- Files on disk after a run, completed or aborted: an `ok` result's
writes, or the writes performed before an aborting error. -/
def writesOf :
    Except (List (String × List ProcessedPlayer)) RunResult →
    List (String × List ProcessedPlayer)
  | Except.ok r => r.writes
  | Except.error w => w

/-- Warnings printed by a completed run. -/
def warningsOf :
    Except (List (String × List ProcessedPlayer)) RunResult → List String
  | Except.ok r => r.warnings
  | Except.error _ => []

/-- Whether the run completed without an uncaught error. -/
def isOk :
    Except (List (String × List ProcessedPlayer)) RunResult → Bool
  | Except.ok _ => true
  | Except.error _ => false

/-- The grouped input used by the C6 witness: an unmapped team followed
by a mapped one. -/
def c6g2 : List (String × List SourceRow) := [("Atlanta Hawks", [baseRow])]

/-- The completed run of the C6 witness including the unmapped team. -/
def c6res : RunResult :=
  match runTeams (fun _ => none) ([] ++ ("Unknown Team XYZ", [baseRow]) :: c6g2) with
  | Except.ok r => r
  | Except.error _ => { writes := [], warnings := [] }

/-! ## C8: a malformed numeric field is fatal -/

/-- The required numeric fields of a source row: the nine fields feeding
`astRating` / `athleticism` and the rating sort key
(`overallAttribute`). -/
def rowNumericOk (r : SourceRow) : Bool :=
  (pyInt r.passAccuracy).isSome && (pyInt r.passIQ).isSome &&
  (pyInt r.passVision).isSome && (pyInt r.speed).isSome &&
  (pyInt r.agility).isSome && (pyInt r.strength).isSome &&
  (pyInt r.vertical).isSome && (pyInt r.stamina).isSome &&
  (pyInt r.hustle).isSome && (pyInt r.overallAttribute).isSome

/-- A concrete malformed row: `passIQ` is not an integer. -/
def c8bad : SourceRow := { baseRow with name := "E", passIQ := "n/a" }

/-- The completed run of the teams before the malformed one in the C8
witness. -/
def c8res : RunResult :=
  match runTeams (fun _ => none) [("Atlanta Hawks", [baseRow])] with
  | Except.ok r => r
  | Except.error _ => { writes := [], warnings := [] }

/-! ## C5 machinery: rereading one's own output -/

/-- The protected quintuple of a written output record. -/
def protectedOfPlayer (p : ProcessedPlayer) : ProtectedData :=
  { name := p.name, englishName := p.englishName, position := p.position,
    playerType := p.playerType, rotationType := p.rotationType }

/-- A duplicate of `baseRow`: same display name "A", different position. -/
def c5dup : SourceRow := { baseRow with position := "C" }

/-- The C5 counterexample input roster: two rows of the same team with
the same display name and different positions. -/
def c5input : List SourceRow := [baseRow, c5dup]

/-- The filesystem exactly as the first run leaves it: each team file
holds what the first run wrote, reread as existing rows. -/
def c5fs1 : String → Option (List ExistingRow) := fun s =>
  ((writesOf (process_roster (fun _ => none) c5input)).lookup s).map
    (fun l => l.map toExistingRow)

/-- First-run output for the C5 witness team. -/
def c5wout : List ProcessedPlayer := (processTeam none [baseRow]).getD []

/-! ## Theorems -/

/-! ## Helper lemmas about `process_player` -/

/-- Characterization of a successful `process_player`: with all nine
numeric fields parsed, the output is the projected record with the two
derived ratings. -/
theorem process_player_eq (row : SourceRow)
    (pa pq pv sp ag st vt sm hu : Int)
    (h1 : pyInt row.passAccuracy = some pa)
    (h2 : pyInt row.passIQ = some pq)
    (h3 : pyInt row.passVision = some pv)
    (h4 : pyInt row.speed = some sp)
    (h5 : pyInt row.agility = some ag)
    (h6 : pyInt row.strength = some st)
    (h7 : pyInt row.vertical = some vt)
    (h8 : pyInt row.stamina = some sm)
    (h9 : pyInt row.hustle = some hu) :
    process_player row = some
      { name := row.name
        englishName := row.name
        position := row.position
        playerType := ""
        rotationType := ""
        rating := row.overallAttribute
        insideRating := row.closeShot
        midRating := row.midRangeShot
        threeRating := row.threePointShot
        freeThrowPercent := row.freeThrow
        interiorDefense := row.interiorDefense
        perimeterDefense := row.perimeterDefense
        orbRating := row.offensiveRebound
        drbRating := row.defensiveRebound
        astRating := toString (Int.fdiv (pa + pq + pv) 3)
        stlRating := row.steal
        blkRating := row.block
        layupRating := row.layup
        standDunk := row.standingDunk
        drivingDunk := row.drivingDunk
        athleticism := toString (Int.fdiv (sp + ag + st + vt + sm + hu) 6)
        durability := row.overallDurability
        offConst := row.offensiveConsistency
        defConst := row.defensiveConsistency
        drawFoul := row.drawFoul } := by
  simp only [process_player, h1, h2, h3, h4, h5, h6, h7, h8, h9]

/-! ## C3: derived ratings are floored means -/

/-- C3: for every source row whose nine athletic/passing fields parse as
integers, `astRating` is the decimal string of
`floor((passAccuracy + passIQ + passVision) / 3)` and `athleticism` is
the decimal string of
`floor((speed + agility + strength + vertical + stamina + hustle) / 6)`,
i.e. the floors (`Int.fdiv`) of the arithmetic means, never rounded up. -/
theorem C3_floored_means (row : SourceRow) (p : ProcessedPlayer)
    (pa pq pv sp ag st vt sm hu : Int)
    (h1 : pyInt row.passAccuracy = some pa)
    (h2 : pyInt row.passIQ = some pq)
    (h3 : pyInt row.passVision = some pv)
    (h4 : pyInt row.speed = some sp)
    (h5 : pyInt row.agility = some ag)
    (h6 : pyInt row.strength = some st)
    (h7 : pyInt row.vertical = some vt)
    (h8 : pyInt row.stamina = some sm)
    (h9 : pyInt row.hustle = some hu)
    (hp : process_player row = some p) :
    p.astRating = toString (Int.fdiv (pa + pq + pv) 3) ∧
    p.athleticism = toString (Int.fdiv (sp + ag + st + vt + sm + hu) 6) := by
  rw [process_player_eq row pa pq pv sp ag st vt sm hu h1 h2 h3 h4 h5 h6 h7 h8 h9]
    at hp
  cases Option.some.inj hp
  exact ⟨rfl, rfl⟩

/-- C3 witness: on the concrete row with passing fields 70, 70, 71 and
athletic fields 80, 80, 80, 80, 80, 85, the theorem applies and the
derived ratings evaluate to "70" and "80" (floored, not rounded up). -/
theorem C3_floored_means_witness :
    process_player baseRow = some basePlayer ∧
    basePlayer.astRating = toString (Int.fdiv (70 + 70 + 71) 3) ∧
    basePlayer.athleticism = toString (Int.fdiv (80 + 80 + 80 + 80 + 80 + 85) 6) ∧
    basePlayer.astRating = "70" ∧
    basePlayer.athleticism = "80" :=
  ⟨rfl,
   (C3_floored_means baseRow basePlayer 70 70 71 80 80 80 80 80 85
      rfl rfl rfl rfl rfl rfl rfl rfl rfl rfl).1,
   (C3_floored_means baseRow basePlayer 70 70 71 80 80 80 80 80 85
      rfl rfl rfl rfl rfl rfl rfl rfl rfl rfl).2,
   by decide, by decide⟩

/-! ## C9: defaults when no reconciliation match -/

/-- C9: when the source row's display name has no entry in the
reconciliation index (in particular when no prior output file exists),
the output record's `englishName` equals the source row's `name`
verbatim, and `playerType` and `rotationType` are the empty string. -/
theorem C9_unmatched_defaults (existing : Option (List ExistingRow))
    (row : SourceRow) (fresh : ProcessedPlayer)
    (hp : process_player row = some fresh)
    (hm : read_existing_team_data existing row.name = none) :
    (reconcile (read_existing_team_data existing) row fresh).englishName = row.name ∧
    (reconcile (read_existing_team_data existing) row fresh).playerType = "" ∧
    (reconcile (read_existing_team_data existing) row fresh).rotationType = "" := by
  unfold process_player at hp
  split at hp
  · cases Option.some.inj hp
    unfold reconcile
    rw [hm]
    exact ⟨rfl, rfl, rfl⟩
  · exact absurd hp (by simp)

/-- C9 witness: with no prior output file, the concrete row keeps its own
name as `englishName` and empty `playerType` / `rotationType`. -/
theorem C9_unmatched_defaults_witness :
    process_player baseRow = some basePlayer ∧
    read_existing_team_data none baseRow.name = none ∧
    (reconcile (read_existing_team_data none) baseRow basePlayer).englishName = baseRow.name ∧
    (reconcile (read_existing_team_data none) baseRow basePlayer).playerType = "" ∧
    (reconcile (read_existing_team_data none) baseRow basePlayer).rotationType = "" :=
  ⟨rfl, rfl,
   (C9_unmatched_defaults none baseRow basePlayer rfl rfl).1,
   (C9_unmatched_defaults none baseRow basePlayer rfl rfl).2.1,
   (C9_unmatched_defaults none baseRow basePlayer rfl rfl).2.2⟩

/-! ## C1: reconciliation merges protected fields with fresh ratings -/

/-- C1: for a newly processed player whose display name matches a key of
the reconciliation index, the output record takes the five protected
fields from the existing record while every rating/attribute field,
including the derived `astRating` and `athleticism`, is the freshly
computed value from the source row. -/
theorem C1_protected_merge (existing : Option (List ExistingRow))
    (row : SourceRow) (fresh : ProcessedPlayer) (ex : ProtectedData)
    (pa pq pv sp ag st vt sm hu : Int)
    (h1 : pyInt row.passAccuracy = some pa)
    (h2 : pyInt row.passIQ = some pq)
    (h3 : pyInt row.passVision = some pv)
    (h4 : pyInt row.speed = some sp)
    (h5 : pyInt row.agility = some ag)
    (h6 : pyInt row.strength = some st)
    (h7 : pyInt row.vertical = some vt)
    (h8 : pyInt row.stamina = some sm)
    (h9 : pyInt row.hustle = some hu)
    (hp : process_player row = some fresh)
    (hm : read_existing_team_data existing row.name = some ex) :
    reconcile (read_existing_team_data existing) row fresh =
      { name := ex.name
        englishName := ex.englishName
        position := ex.position
        playerType := ex.playerType
        rotationType := ex.rotationType
        rating := row.overallAttribute
        insideRating := row.closeShot
        midRating := row.midRangeShot
        threeRating := row.threePointShot
        freeThrowPercent := row.freeThrow
        interiorDefense := row.interiorDefense
        perimeterDefense := row.perimeterDefense
        orbRating := row.offensiveRebound
        drbRating := row.defensiveRebound
        astRating := toString (Int.fdiv (pa + pq + pv) 3)
        stlRating := row.steal
        blkRating := row.block
        layupRating := row.layup
        standDunk := row.standingDunk
        drivingDunk := row.drivingDunk
        athleticism := toString (Int.fdiv (sp + ag + st + vt + sm + hu) 6)
        durability := row.overallDurability
        offConst := row.offensiveConsistency
        defConst := row.defensiveConsistency
        drawFoul := row.drawFoul } := by
  rw [process_player_eq row pa pq pv sp ag st vt sm hu h1 h2 h3 h4 h5 h6 h7 h8 h9]
    at hp
  cases Option.some.inj hp
  unfold reconcile
  rw [hm]

/-- C1 witness: on the concrete existing file `[c1ex]` and source row
`baseRow` the theorem applies; the protected fields come from `c1ex`
and the rating fields from `baseRow`. -/
theorem C1_protected_merge_witness :
    process_player baseRow = some basePlayer ∧
    read_existing_team_data (some [c1ex]) baseRow.name = some (protectedOf c1ex) ∧
    reconcile (read_existing_team_data (some [c1ex])) baseRow basePlayer =
      { name := "Alpha"
        englishName := "A"
        position := "SG"
        playerType := "Starter"
        rotationType := "Rot8"
        rating := "80"
        insideRating := "81"
        midRating := "82"
        threeRating := "83"
        freeThrowPercent := "84"
        interiorDefense := "85"
        perimeterDefense := "86"
        orbRating := "87"
        drbRating := "88"
        astRating := "70"
        stlRating := "89"
        blkRating := "90"
        layupRating := "91"
        standDunk := "92"
        drivingDunk := "93"
        athleticism := "80"
        durability := "94"
        offConst := "95"
        defConst := "96"
        drawFoul := "97" } :=
  ⟨rfl, rfl, by
    rw [C1_protected_merge (some [c1ex]) baseRow basePlayer (protectedOf c1ex)
      70 70 71 80 80 80 80 80 85 rfl rfl rfl rfl rfl rfl rfl rfl rfl rfl rfl]
    decide⟩

/-! ## Lemmas about the reconciliation index -/

/-- A row whose key is the empty string is skipped by the loop body. -/
theorem indexStep_empty_key (info : String → Option ProtectedData)
    (r : ExistingRow) (h : rowKey r = "") : indexStep info r = info := by
  unfold indexStep
  rw [if_pos h]

/-- The loop body leaves every other key unchanged. -/
theorem indexStep_of_ne (info : String → Option ProtectedData)
    (r : ExistingRow) (s : String) (h : s ≠ rowKey r) :
    indexStep info r s = info s := by
  unfold indexStep
  split
  · rfl
  · exact if_neg h

/-- The loop body stores the row's protected fields under its key. -/
theorem indexStep_self (info : String → Option ProtectedData)
    (r : ExistingRow) (h : rowKey r ≠ "") :
    indexStep info r (rowKey r) = some (protectedOf r) := by
  unfold indexStep
  rw [if_neg h, if_pos rfl]

/-- Keys matched by no row of the suffix keep their prior index value. -/
theorem foldl_indexStep_of_forall_ne (rows : List ExistingRow)
    (init : String → Option ProtectedData) (s : String)
    (h : ∀ r ∈ rows, rowKey r ≠ s) :
    (rows.foldl indexStep init) s = init s := by
  induction rows generalizing init with
  | nil => rfl
  | cons r0 rest ih =>
    rw [List.foldl_cons, ih _ (fun r hr => h r (List.mem_cons_of_mem r0 hr)),
      indexStep_of_ne]
    exact fun hs => h r0 (List.mem_cons_self r0 rest) hs.symm

/-- The index never holds an entry under the empty key. -/
theorem foldl_indexStep_empty_string (rows : List ExistingRow)
    (init : String → Option ProtectedData) :
    (rows.foldl indexStep init) "" = init "" := by
  induction rows generalizing init with
  | nil => rfl
  | cons r0 rest ih =>
    rw [List.foldl_cons, ih]
    by_cases h : rowKey r0 = ""
    · rw [indexStep_empty_key _ _ h]
    · exact indexStep_of_ne _ _ _ fun hs => h hs.symm

/-- The empty display name never matches the reconciliation index. -/
theorem read_existing_empty_string (file : Option (List ExistingRow)) :
    read_existing_team_data file "" = none := by
  cases file with
  | none => rfl
  | some rows => exact foldl_indexStep_empty_string rows _

/-- Inversion of an index lookup: a stored entry comes from some row of
the file whose key is the looked-up (nonempty) string, or was already in
the initial dictionary. -/
theorem foldl_indexStep_inv (rows : List ExistingRow)
    (init : String → Option ProtectedData) (s : String) (q : ProtectedData)
    (h : (rows.foldl indexStep init) s = some q) :
    (s ≠ "" ∧ ∃ r ∈ rows, rowKey r = s ∧ protectedOf r = q) ∨ init s = some q := by
  induction rows generalizing init with
  | nil => exact Or.inr h
  | cons r0 rest ih =>
    rw [List.foldl_cons] at h
    rcases ih _ h with hrest | hinit
    · exact Or.inl ⟨hrest.1, hrest.2.elim fun r hr =>
        ⟨r, List.mem_cons_of_mem r0 hr.1, hr.2⟩⟩
    · by_cases hk : rowKey r0 = ""
      · rw [indexStep_empty_key _ _ hk] at hinit
        exact Or.inr hinit
      · by_cases hs : s = rowKey r0
        · subst hs
          rw [indexStep_self _ _ hk] at hinit
          exact Or.inl ⟨hk, r0, List.mem_cons_self r0 rest,
            rfl, Option.some.inj hinit⟩
        · rw [indexStep_of_ne _ _ _ hs] at hinit
          exact Or.inr hinit

/-- Positive index lookup: if every row of the file carrying the
(nonempty) key `s` stores the same protected record `q`, and at least
one row carries `s`, then looking up `s` yields `q`. -/
theorem foldl_indexStep_const (rows : List ExistingRow)
    (init : String → Option ProtectedData) (s : String) (q : ProtectedData)
    (hs : s ≠ "")
    (hall : ∀ r ∈ rows, rowKey r = s → protectedOf r = q)
    (hsome : (∃ r ∈ rows, rowKey r = s) ∨ init s = some q) :
    (rows.foldl indexStep init) s = some q := by
  induction rows generalizing init with
  | nil =>
    rcases hsome with ⟨r, hr, _⟩ | hinit
    · exact absurd hr (List.not_mem_nil r)
    · exact hinit
  | cons r0 rest ih =>
    rw [List.foldl_cons]
    by_cases hk : rowKey r0 = s
    · refine ih _ (fun r hr => hall r (List.mem_cons_of_mem r0 hr)) (Or.inr ?_)
      rw [← hk, indexStep_self]
      · rw [hall r0 (List.mem_cons_self r0 rest) hk]
      · rw [hk]; exact hs
    · refine ih _ (fun r hr => hall r (List.mem_cons_of_mem r0 hr)) ?_
      rcases hsome with ⟨r, hr, hkey⟩ | hinit
      · rcases List.mem_cons.mp hr with rfl | hr2
        · exact absurd hkey hk
        · exact Or.inl ⟨r, hr2, hkey⟩
      · refine Or.inr ?_
        by_cases hke : rowKey r0 = ""
        · rw [indexStep_empty_key _ _ hke]; exact hinit
        · rw [indexStep_of_ne _ _ _ fun h => hk h.symm]; exact hinit

/-- C2 counterexample: the claim says a row with a present-but-empty
`englishName` and non-empty `name` still participates in reconciliation
under its `name`; on the concrete file `[c2blank]` the lookup of "Bob"
is `none`, because `dict.get` only falls back when the key is absent and
`if english_name:` then drops the empty-string key entirely. -/
theorem C2_counterexample :
    c2blank.englishName = some "" ∧ c2blank.name = some "Bob" ∧
    read_existing_team_data (some [c2blank]) "Bob" = none :=
  ⟨rfl, rfl, rfl⟩

/-- C2 (amended): a row is keyed by `englishName` whenever that key is
present, even when its value is blank; the fallback to `name` applies
only when `englishName` is absent; and a row whose selected key is the
empty string is omitted from the index entirely, leaving the index
unchanged, so a present-but-empty `englishName` row does not participate
in reconciliation at all. -/
theorem C2_amended_key_selection (rows1 rows2 : List ExistingRow) (r : ExistingRow) :
    (∀ e, r.englishName = some e → rowKey r = e) ∧
    (r.englishName = none → rowKey r = r.name.getD "") ∧
    (rowKey r = "" → ∀ s,
      read_existing_team_data (some (rows1 ++ r :: rows2)) s =
        read_existing_team_data (some (rows1 ++ rows2)) s) := by
  refine ⟨fun e he => ?_, fun he => ?_, fun hk s => ?_⟩
  · unfold rowKey; rw [he]
  · unfold rowKey; rw [he]
  · show (List.foldl indexStep (fun _ => none) (rows1 ++ r :: rows2)) s =
      (List.foldl indexStep (fun _ => none) (rows1 ++ rows2)) s
    rw [List.foldl_append, List.foldl_append, List.foldl_cons,
      indexStep_empty_key _ _ hk]

/-- C2 amended witness: applying the amended theorem at the concrete file
`[c2blank, c2ann]`: the blank-keyed row is dropped, so lookups agree
with the file `[c2ann]`; moreover `rowKey c2blank` is selected from its
present `englishName` and is empty. -/
theorem C2_amended_key_selection_witness :
    rowKey c2blank = "" ∧
    read_existing_team_data (some [c2blank, c2ann]) "Bob" =
      read_existing_team_data (some [c2ann]) "Bob" ∧
    read_existing_team_data (some [c2blank, c2ann]) "Ann" =
      read_existing_team_data (some [c2ann]) "Ann" :=
  ⟨(C2_amended_key_selection [] [c2ann] c2blank).1 "" rfl,
   (C2_amended_key_selection [] [c2ann] c2blank).2.2 rfl "Bob",
   (C2_amended_key_selection [] [c2ann] c2blank).2.2 rfl "Ann"⟩

/-! ## C10: duplicate keys in an existing file, last row wins -/

/-- C10: if several rows of an existing team file resolve to the same
reconciliation key, the index keeps the protected fields of the last
such row in file order, and reconciliation of a matching player uses
exactly those fields. -/
theorem C10_last_duplicate_wins (rows1 rows2 : List ExistingRow)
    (er : ExistingRow) (s : String)
    (hk : rowKey er = s) (hs : s ≠ "")
    (hlast : ∀ r ∈ rows2, rowKey r ≠ s) :
    read_existing_team_data (some (rows1 ++ er :: rows2)) s =
      some (protectedOf er) ∧
    ∀ (row : SourceRow) (fresh : ProcessedPlayer), row.name = s →
      reconcile (read_existing_team_data (some (rows1 ++ er :: rows2))) row fresh =
        { fresh with
            name := (protectedOf er).name
            englishName := (protectedOf er).englishName
            position := (protectedOf er).position
            playerType := (protectedOf er).playerType
            rotationType := (protectedOf er).rotationType } := by
  have hlook : read_existing_team_data (some (rows1 ++ er :: rows2)) s =
      some (protectedOf er) := by
    show (List.foldl indexStep (fun _ => none) (rows1 ++ er :: rows2)) s =
      some (protectedOf er)
    rw [List.foldl_append, List.foldl_cons,
      foldl_indexStep_of_forall_ne rows2 _ s hlast, ← hk,
      indexStep_self _ _ (by rw [hk]; exact hs)]
  refine ⟨hlook, fun row fresh hname => ?_⟩
  unfold reconcile
  rw [hname, hlook]

/-- C10 witness: in the concrete file `[c10first, c2ann]` both rows carry
the key "Ann"; the lookup returns the protected fields of the later row
`c2ann` (position "C", playerType "Bench"), not those of `c10first`. -/
theorem C10_last_duplicate_wins_witness :
    read_existing_team_data (some [c10first, c2ann]) "Ann" =
      some (protectedOf c2ann) ∧
    protectedOf c2ann ≠ protectedOf c10first ∧
    rowKey c10first = "Ann" :=
  ⟨(C10_last_duplicate_wins [c10first] [] c2ann "Ann" rfl (by decide)
      (fun r hr => absurd hr (List.not_mem_nil r))).1,
   by decide, rfl⟩

/-! ## Lemmas about the sort -/

/-- Stability of the sort: for every integer key, the records carrying
that key appear in the sorted output in exactly their pre-sort order. -/
theorem sortByRatingDesc_filter (l : List ProcessedPlayer) (k : Int) :
    (sortByRatingDesc l).filter (fun p => ratingInt p == k) =
      l.filter (fun p => ratingInt p == k) := by
  set pk : ProcessedPlayer → Bool := fun p => ratingInt p == k with hpk
  have hpair : (l.filter pk).Pairwise ratingGe := by
    refine List.pairwise_of_forall_mem_list fun a ha b hb => ?_
    have hak : ratingInt a = k := by
      have := (List.mem_filter.mp ha).2
      rwa [hpk, beq_iff_eq] at this
    have hbk : ratingInt b = k := by
      have := (List.mem_filter.mp hb).2
      rwa [hpk, beq_iff_eq] at this
    unfold ratingGe
    rw [hak, hbk]
  have hsubl : List.Sublist (l.filter pk) (List.insertionSort ratingGe l) :=
    List.sublist_insertionSort hpair (List.filter_sublist l)
  have hsub2 : List.Sublist ((l.filter pk).filter pk)
      ((List.insertionSort ratingGe l).filter pk) :=
    hsubl.filter pk
  have hself : (l.filter pk).filter pk = l.filter pk :=
    List.filter_eq_self.mpr fun a ha => (List.mem_filter.mp ha).2
  have hsub3 : List.Sublist (l.filter pk)
      ((List.insertionSort ratingGe l).filter pk) := hself ▸ hsub2
  have hlen : ((List.insertionSort ratingGe l).filter pk).length =
      (l.filter pk).length :=
    ((List.perm_insertionSort ratingGe l).filter pk).length_eq
  exact (hsub3.eq_of_length hlen.symm).symm

/-! ## C4: output sorted descending by integer rating, stably -/

/-- C4: the output sequence of a team is the stable descending sort of
the pre-sort sequence by the rating field parsed as an integer:
adjacent records satisfy `ratingInt first ≥ ratingInt second`, and for
every key the records carrying it keep their pre-sort relative order. -/
theorem C4_sorted_stable (existing : Option (List ExistingRow))
    (players : List SourceRow) (pre out : List ProcessedPlayer)
    (hpre : processPlayers (read_existing_team_data existing) players = some pre)
    (hout : processTeam existing players = some out) :
    out = sortByRatingDesc pre ∧
    List.Chain' ratingGe out ∧
    ∀ k : Int, out.filter (fun p => ratingInt p == k) =
      pre.filter (fun p => ratingInt p == k) := by
  have hsort : out = sortByRatingDesc pre := by
    unfold processTeam at hout
    rw [hpre] at hout
    have hout2 : (if (pre.all fun p => (pyInt p.rating).isSome) = true then
        some (sortByRatingDesc pre) else none) = some out := hout
    by_cases hall : (pre.all fun p => (pyInt p.rating).isSome) = true
    · rw [if_pos hall] at hout2
      exact (Option.some.inj hout2).symm
    · rw [if_neg hall] at hout2
      exact absurd hout2 (by simp)
  subst hsort
  refine ⟨rfl, ?_, fun k => sortByRatingDesc_filter pre k⟩
  exact List.chain'_iff_pairwise.mpr (List.sorted_insertionSort ratingGe pre)

/-- C4 witness: on the concrete team the theorem applies; moreover the
concrete output order is "C" (rating 10) first, then "B" and "D"
(rating 9) in their original relative order, so "10" sorts above "9"
numerically, not lexicographically. -/
theorem C4_sorted_stable_witness :
    processTeam none [c4r1, c4r2, c4r3] = some c4out ∧
    c4out = sortByRatingDesc c4pre ∧
    List.Chain' ratingGe c4out ∧
    c4out.filter (fun p => ratingInt p == 9) =
      c4pre.filter (fun p => ratingInt p == 9) ∧
    c4out.map (fun p => p.name) = ["C", "B", "D"] :=
  ⟨rfl,
   (C4_sorted_stable none [c4r1, c4r2, c4r3] c4pre c4out rfl rfl).1,
   (C4_sorted_stable none [c4r1, c4r2, c4r3] c4pre c4out rfl rfl).2.1,
   (C4_sorted_stable none [c4r1, c4r2, c4r3] c4pre c4out rfl rfl).2.2 9,
   by decide⟩

/-- An aborted prefix aborts the whole run with the same writes. -/
theorem runTeams_append_error (fs : String → Option (List ExistingRow))
    (g1 g2 : List (String × List SourceRow))
    (w : List (String × List ProcessedPlayer))
    (h : runTeams fs g1 = Except.error w) :
    runTeams fs (g1 ++ g2) = Except.error w := by
  induction g1 generalizing w with
  | nil => exact absurd h (by simp [runTeams])
  | cons hd rest ih =>
    obtain ⟨team, players⟩ := hd
    rw [List.cons_append]
    simp only [runTeams] at h ⊢
    cases hk : teamLookup team with
    | some code =>
      rw [hk] at h
      dsimp only at h ⊢
      cases hp : processTeam (fs code) players with
      | some out =>
        rw [hp] at h
        dsimp only at h ⊢
        cases hr : runTeams fs rest with
        | ok rr => rw [hr] at h; exact absurd h (by simp)
        | error ws =>
          rw [hr] at h
          dsimp only at h
          rw [ih ws hr]
          dsimp only
          rw [Except.error.inj h]
      | none =>
        rw [hp] at h
        dsimp only at h ⊢
        rw [← Except.error.inj h]
    | none =>
      rw [hk] at h
      dsimp only at h ⊢
      cases hr : runTeams fs rest with
      | ok rr => rw [hr] at h; exact absurd h (by simp)
      | error ws =>
        rw [hr] at h
        rw [ih ws hr, Except.error.inj h]

/-- Two completed runs compose: writes and warnings concatenate. -/
theorem runTeams_append_ok (fs : String → Option (List ExistingRow))
    (g1 g2 : List (String × List SourceRow)) (r1 r2 : RunResult)
    (h1 : runTeams fs g1 = Except.ok r1)
    (h2 : runTeams fs g2 = Except.ok r2) :
    runTeams fs (g1 ++ g2) =
      Except.ok { writes := r1.writes ++ r2.writes,
                  warnings := r1.warnings ++ r2.warnings } := by
  induction g1 generalizing r1 with
  | nil =>
    simp only [runTeams] at h1
    cases Except.ok.inj h1
    simpa using h2
  | cons hd rest ih =>
    obtain ⟨team, players⟩ := hd
    rw [List.cons_append]
    simp only [runTeams] at h1 ⊢
    cases hk : teamLookup team with
    | some code =>
      rw [hk] at h1
      dsimp only at h1 ⊢
      cases hp : processTeam (fs code) players with
      | some out =>
        rw [hp] at h1
        dsimp only at h1 ⊢
        cases hr : runTeams fs rest with
        | ok rr =>
          rw [hr] at h1
          rw [ih rr hr]
          cases Except.ok.inj h1
          rfl
        | error ws => rw [hr] at h1; exact absurd h1 (by simp)
      | none =>
        rw [hp] at h1
        exact absurd h1 (by simp)
    | none =>
      rw [hk] at h1
      dsimp only at h1 ⊢
      cases hr : runTeams fs rest with
      | ok rr =>
        rw [hr] at h1
        rw [ih rr hr]
        cases Except.ok.inj h1
        rfl
      | error ws => rw [hr] at h1; exact absurd h1 (by simp)

/-- A completed prefix followed by an aborting suffix: the run aborts
with the prefix's writes in front of the suffix's. -/
theorem runTeams_append_ok_error (fs : String → Option (List ExistingRow))
    (g1 g2 : List (String × List SourceRow)) (r1 : RunResult)
    (w : List (String × List ProcessedPlayer))
    (h1 : runTeams fs g1 = Except.ok r1)
    (h2 : runTeams fs g2 = Except.error w) :
    runTeams fs (g1 ++ g2) = Except.error (r1.writes ++ w) := by
  induction g1 generalizing r1 with
  | nil =>
    simp only [runTeams] at h1
    cases Except.ok.inj h1
    simpa using h2
  | cons hd rest ih =>
    obtain ⟨team, players⟩ := hd
    rw [List.cons_append]
    simp only [runTeams] at h1 ⊢
    cases hk : teamLookup team with
    | some code =>
      rw [hk] at h1
      dsimp only at h1 ⊢
      cases hp : processTeam (fs code) players with
      | some out =>
        rw [hp] at h1
        dsimp only at h1 ⊢
        cases hr : runTeams fs rest with
        | ok rr =>
          rw [hr] at h1
          rw [ih rr hr]
          cases Except.ok.inj h1
          rfl
        | error ws => rw [hr] at h1; exact absurd h1 (by simp)
      | none =>
        rw [hp] at h1
        exact absurd h1 (by simp)
    | none =>
      rw [hk] at h1
      dsimp only at h1 ⊢
      cases hr : runTeams fs rest with
      | ok rr =>
        rw [hr] at h1
        rw [ih rr hr]
        cases Except.ok.inj h1
        rfl
      | error ws => rw [hr] at h1; exact absurd h1 (by simp)

/-- Every file written by a run belongs to some team of the processed
list, through the fixed team mapping. -/
theorem runTeams_writes_keys (fs : String → Option (List ExistingRow))
    (g : List (String × List SourceRow)) (r : RunResult)
    (h : runTeams fs g = Except.ok r) :
    ∀ e ∈ r.writes, ∃ p ∈ g, teamLookup p.1 = some e.1 := by
  induction g generalizing r with
  | nil =>
    simp only [runTeams] at h
    cases Except.ok.inj h
    intro e he
    exact absurd he (List.not_mem_nil e)
  | cons hd rest ih =>
    obtain ⟨team, players⟩ := hd
    simp only [runTeams] at h
    cases hk : teamLookup team with
    | some code =>
      rw [hk] at h
      dsimp only at h
      cases hp : processTeam (fs code) players with
      | some out =>
        rw [hp] at h
        dsimp only at h
        cases hr : runTeams fs rest with
        | ok rr =>
          rw [hr] at h
          cases Except.ok.inj h
          intro e he
          rcases List.mem_cons.mp he with rfl | he2
          · exact ⟨(team, players), List.mem_cons_self _ _, hk⟩
          · obtain ⟨p, hp2, hp3⟩ := ih rr hr e he2
            exact ⟨p, List.mem_cons_of_mem _ hp2, hp3⟩
        | error ws => rw [hr] at h; exact absurd h (by simp)
      | none =>
        rw [hp] at h
        exact absurd h (by simp)
    | none =>
      rw [hk] at h
      dsimp only at h
      cases hr : runTeams fs rest with
      | ok rr =>
        rw [hr] at h
        cases Except.ok.inj h
        intro e he
        obtain ⟨p, hp2, hp3⟩ := ih rr hr e he
        exact ⟨p, List.mem_cons_of_mem _ hp2, hp3⟩
      | error ws => rw [hr] at h; exact absurd h (by simp)

/-! ## C6: unmapped teams are warned about and skipped -/

/-- C6: a grouped team whose name is not in `TEAM_MAPPING` produces no
output file and none of its rows appear anywhere (the runs with and
without it perform identical writes and agree on success), the run is
not halted by it, and on completion the warning for that team has been
printed. -/
theorem C6_unmapped_team (fs : String → Option (List ExistingRow))
    (g1 g2 : List (String × List SourceRow))
    (team : String) (players : List SourceRow)
    (h : teamLookup team = none) :
    writesOf (runTeams fs (g1 ++ (team, players) :: g2)) =
      writesOf (runTeams fs (g1 ++ g2)) ∧
    isOk (runTeams fs (g1 ++ (team, players) :: g2)) =
      isOk (runTeams fs (g1 ++ g2)) ∧
    ∀ res : RunResult, runTeams fs (g1 ++ (team, players) :: g2) = Except.ok res →
      ("Warning: No mapping found for team " ++ team) ∈ res.warnings := by
  cases h1 : runTeams fs g1 with
  | error w =>
    rw [runTeams_append_error fs g1 _ w h1, runTeams_append_error fs g1 g2 w h1]
    exact ⟨rfl, rfl, fun res hres => absurd hres (by simp)⟩
  | ok r1 =>
    cases h2 : runTeams fs g2 with
    | ok r2 =>
      have hmid : runTeams fs ((team, players) :: g2) =
          Except.ok { writes := r2.writes,
                      warnings := ("Warning: No mapping found for team " ++ team)
                        :: r2.warnings } := by
        simp only [runTeams]
        rw [h, h2]
      rw [runTeams_append_ok fs g1 _ r1 _ h1 hmid,
        runTeams_append_ok fs g1 g2 r1 r2 h1 h2]
      refine ⟨rfl, rfl, fun res hres => ?_⟩
      cases Except.ok.inj hres
      simp
    | error w2 =>
      have hmid : runTeams fs ((team, players) :: g2) = Except.error w2 := by
        simp only [runTeams]
        rw [h, h2]
      rw [runTeams_append_ok_error fs g1 _ r1 w2 h1 hmid,
        runTeams_append_ok_error fs g1 g2 r1 w2 h1 h2]
      exact ⟨rfl, rfl, fun res hres => absurd hres (by simp)⟩

/-- C6 witness: on the concrete grouped input, the run with the unmapped
team "Unknown Team XYZ" writes exactly what the run without it writes,
still succeeds, and prints the warning for it. -/
theorem C6_unmapped_team_witness :
    teamLookup "Unknown Team XYZ" = none ∧
    writesOf (runTeams (fun _ => none)
        ([] ++ ("Unknown Team XYZ", [baseRow]) :: c6g2)) =
      writesOf (runTeams (fun _ => none) ([] ++ c6g2)) ∧
    isOk (runTeams (fun _ => none)
        ([] ++ ("Unknown Team XYZ", [baseRow]) :: c6g2)) =
      isOk (runTeams (fun _ => none) ([] ++ c6g2)) ∧
    ("Warning: No mapping found for team " ++ "Unknown Team XYZ") ∈
      c6res.warnings :=
  ⟨rfl,
   (C6_unmapped_team (fun _ => none) [] c6g2 "Unknown Team XYZ" [baseRow] rfl).1,
   (C6_unmapped_team (fun _ => none) [] c6g2 "Unknown Team XYZ" [baseRow] rfl).2.1,
   (C6_unmapped_team (fun _ => none) [] c6g2 "Unknown Team XYZ" [baseRow] rfl).2.2
     c6res rfl⟩

/-! ## C7: missing input file -/

/-- C7: when the hard-coded input path does not exist, the run prints a
single diagnostic message and returns: `process_roster` is never
invoked, so no output file is read, written or modified, no exception
escapes, and the outcome does not depend on the filesystem at all. -/
theorem C7_missing_input (fs fs2 : String → Option (List ExistingRow)) :
    mainRun none fs = mainRun none fs2 ∧
    (mainRun none fs).messages =
      ["Error: Input file public/data/rosters/temp.csv not found!"] ∧
    (mainRun none fs).messages.length = 1 ∧
    (mainRun none fs).result = none :=
  ⟨rfl, rfl, rfl, rfl⟩

/-- Reconciliation never touches the rating field. -/
theorem reconcile_rating (info : String → Option ProtectedData)
    (row : SourceRow) (p : ProcessedPlayer) :
    (reconcile info row p).rating = p.rating := by
  unfold reconcile
  split
  · rfl
  · rfl

/-- A successful `process_player` means the nine numeric fields parsed,
and the output's rating string is the source's `overallAttribute`. -/
theorem process_player_ok_fields (row : SourceRow) (q : ProcessedPlayer)
    (h : process_player row = some q) :
    (pyInt row.passAccuracy).isSome = true ∧
    (pyInt row.passIQ).isSome = true ∧
    (pyInt row.passVision).isSome = true ∧
    (pyInt row.speed).isSome = true ∧
    (pyInt row.agility).isSome = true ∧
    (pyInt row.strength).isSome = true ∧
    (pyInt row.vertical).isSome = true ∧
    (pyInt row.stamina).isSome = true ∧
    (pyInt row.hustle).isSome = true ∧
    q.rating = row.overallAttribute := by
  cases h1 : pyInt row.passAccuracy with
  | none => simp [process_player, h1] at h
  | some pa =>
  cases h2 : pyInt row.passIQ with
  | none => simp [process_player, h1, h2] at h
  | some pq =>
  cases h3 : pyInt row.passVision with
  | none => simp [process_player, h1, h2, h3] at h
  | some pv =>
  cases h4 : pyInt row.speed with
  | none => simp [process_player, h1, h2, h3, h4] at h
  | some sp =>
  cases h5 : pyInt row.agility with
  | none => simp [process_player, h1, h2, h3, h4, h5] at h
  | some ag =>
  cases h6 : pyInt row.strength with
  | none => simp [process_player, h1, h2, h3, h4, h5, h6] at h
  | some st =>
  cases h7 : pyInt row.vertical with
  | none => simp [process_player, h1, h2, h3, h4, h5, h6, h7] at h
  | some vt =>
  cases h8 : pyInt row.stamina with
  | none => simp [process_player, h1, h2, h3, h4, h5, h6, h7, h8] at h
  | some sm =>
  cases h9 : pyInt row.hustle with
  | none => simp [process_player, h1, h2, h3, h4, h5, h6, h7, h8, h9] at h
  | some hu =>
  rw [process_player_eq row pa pq pv sp ag st vt sm hu h1 h2 h3 h4 h5 h6 h7 h8 h9]
    at h
  cases Option.some.inj h
  exact ⟨rfl, rfl, rfl, rfl, rfl, rfl, rfl, rfl, rfl, rfl⟩

/-- A row whose `process_player` raises aborts the whole player loop. -/
theorem processPlayers_none_of_mem (info : String → Option ProtectedData)
    (r : SourceRow) :
    ∀ players : List SourceRow, r ∈ players → process_player r = none →
      processPlayers info players = none := by
  intro players
  induction players with
  | nil => intro hr; cases hr
  | cons r0 rest ih =>
    intro hr hnone
    rcases List.mem_cons.mp hr with rfl | hr2
    · unfold processPlayers
      rw [hnone]
    · unfold processPlayers
      cases hp : process_player r0 with
      | none => rfl
      | some p =>
        dsimp only
        rw [ih hr2 hnone]

/-- Every row of a successfully processed list contributes its processed,
reconciled record to the result. -/
theorem processPlayers_mem (info : String → Option ProtectedData)
    (r : SourceRow) :
    ∀ (players : List SourceRow) (ps : List ProcessedPlayer),
      r ∈ players → processPlayers info players = some ps →
      ∃ q, process_player r = some q ∧ reconcile info r q ∈ ps := by
  intro players
  induction players with
  | nil => intro ps hr; cases hr
  | cons r0 rest ih =>
    intro ps hr h
    unfold processPlayers at h
    cases hp : process_player r0 with
    | none => rw [hp] at h; exact absurd h (by simp)
    | some p =>
      rw [hp] at h
      dsimp only at h
      cases hps : processPlayers info rest with
      | none => rw [hps] at h; exact absurd h (by simp)
      | some ps2 =>
        rw [hps] at h
        dsimp only at h
        cases Option.some.inj h
        rcases List.mem_cons.mp hr with rfl | hr2
        · exact ⟨p, hp, List.mem_cons_self _ _⟩
        · obtain ⟨q, hq1, hq2⟩ := ih ps2 hr2 hps
          exact ⟨q, hq1, List.mem_cons_of_mem _ hq2⟩

/-- A source row with a malformed required numeric field makes the
processing of its team fail (`ValueError` from `int()`, either during
`process_player` or when the sort key is computed). -/
theorem processTeam_none_of_badrow (existing : Option (List ExistingRow))
    (players : List SourceRow) (r : SourceRow)
    (hr : r ∈ players) (hbad : rowNumericOk r = false) :
    processTeam existing players = none := by
  unfold processTeam
  cases hpp : processPlayers (read_existing_team_data existing) players with
  | none => rfl
  | some ps =>
    dsimp only
    obtain ⟨q, hq, hmem⟩ :=
      processPlayers_mem (read_existing_team_data existing) r players ps hr hpp
    obtain ⟨f1, f2, f3, f4, f5, f6, f7, f8, f9, frate⟩ :=
      process_player_ok_fields r q hq
    have hrate : (pyInt r.overallAttribute).isSome = false := by
      unfold rowNumericOk at hbad
      rw [f1, f2, f3, f4, f5, f6, f7, f8, f9] at hbad
      simpa using hbad
    have hall : (ps.all fun p => (pyInt p.rating).isSome) = false := by
      rw [List.all_eq_false]
      refine ⟨reconcile (read_existing_team_data existing) r q, hmem, ?_⟩
      rw [reconcile_rating, frate, hrate]
      exact Bool.false_ne_true
    rw [hall]
    rfl

/-- C8: if any source row of a mapped team has a required numeric field
that fails integer parsing (one of the nine derived-rating inputs or the
rating sort key), and the teams before it all processed, the run
terminates with an uncaught error whose on-disk effect is exactly the
earlier teams' files: there is no per-row skip, and no output file is
written for the team being processed when the failure occurs. -/
theorem C8_malformed_numeric_fatal (fs : String → Option (List ExistingRow))
    (g1 g2 : List (String × List SourceRow)) (team code : String)
    (players : List SourceRow) (r : SourceRow) (r1 : RunResult)
    (hmap : teamLookup team = some code)
    (hr : r ∈ players) (hbad : rowNumericOk r = false)
    (h1 : runTeams fs g1 = Except.ok r1)
    (hg1 : ∀ p ∈ g1, teamLookup p.1 ≠ some code) :
    runTeams fs (g1 ++ (team, players) :: g2) = Except.error r1.writes ∧
    ∀ e ∈ r1.writes, e.1 ≠ code := by
  have hbadteam : processTeam (fs code) players = none :=
    processTeam_none_of_badrow (fs code) players r hr hbad
  have hmid : runTeams fs ((team, players) :: g2) = Except.error [] := by
    simp only [runTeams]
    rw [hmap]
    dsimp only
    rw [hbadteam]
  refine ⟨?_, fun e he => ?_⟩
  · rw [runTeams_append_ok_error fs g1 _ r1 [] h1 hmid, List.append_nil]
  · obtain ⟨p, hp1, hp2⟩ := runTeams_writes_keys fs g1 r1 h1 e he
    intro hcode
    exact hg1 p hp1 (hcode ▸ hp2)

/-- C8 witness: with the Hawks processed first and a Celtics row whose
`passIQ` does not parse, the run aborts with exactly the Hawks file
written and nothing written for the Celtics. -/
theorem C8_malformed_numeric_fatal_witness :
    rowNumericOk c8bad = false ∧
    runTeams (fun _ => none)
        ([("Atlanta Hawks", [baseRow])] ++ ("Boston Celtics", [c8bad]) :: []) =
      Except.error c8res.writes ∧
    ∀ e ∈ c8res.writes, e.1 ≠ "Celtics" :=
  ⟨rfl,
   (C8_malformed_numeric_fatal (fun _ => none) [("Atlanta Hawks", [baseRow])] []
      "Boston Celtics" "Celtics" [c8bad] c8bad c8res rfl
      (List.mem_cons_self _ _) rfl rfl
      (fun p hp => by
        rcases List.mem_cons.mp hp with rfl | h2
        · intro hc; exact absurd (Option.some.inj hc) (by decide)
        · exact absurd h2 (List.not_mem_nil p))).1,
   (C8_malformed_numeric_fatal (fun _ => none) [("Atlanta Hawks", [baseRow])] []
      "Boston Celtics" "Celtics" [c8bad] c8bad c8res rfl
      (List.mem_cons_self _ _) rfl rfl
      (fun p hp => by
        rcases List.mem_cons.mp hp with rfl | h2
        · intro hc; exact absurd (Option.some.inj hc) (by decide)
        · exact absurd h2 (List.not_mem_nil p))).2⟩

/-- A reread output row is keyed by the written `englishName`. -/
theorem rowKey_toExistingRow (p : ProcessedPlayer) :
    rowKey (toExistingRow p) = p.englishName := rfl

/-- A reread output row stores the written protected quintuple. -/
theorem protectedOf_toExistingRow (p : ProcessedPlayer) :
    protectedOf (toExistingRow p) = protectedOfPlayer p := rfl

/-- Reconciliation on a matched player overwrites the five protected
fields from the stored record. -/
theorem reconcile_matched (info : String → Option ProtectedData)
    (row : SourceRow) (q : ProcessedPlayer) (ex : ProtectedData)
    (hm : info row.name = some ex) :
    reconcile info row q =
      { q with name := ex.name, englishName := ex.englishName,
               position := ex.position, playerType := ex.playerType,
               rotationType := ex.rotationType } := by
  unfold reconcile
  rw [hm]

/-- Reconciliation on an unmatched player changes nothing. -/
theorem reconcile_unmatched (info : String → Option ProtectedData)
    (row : SourceRow) (q : ProcessedPlayer)
    (hm : info row.name = none) :
    reconcile info row q = q := by
  unfold reconcile
  rw [hm]

/-- Reconciling against an index that stores exactly the protected
quintuple of the first run's record reproduces that record. -/
theorem reconcile_of_protected (info2 info1 : String → Option ProtectedData)
    (row : SourceRow) (q : ProcessedPlayer)
    (hm2 : info2 row.name = some (protectedOfPlayer (reconcile info1 row q))) :
    reconcile info2 row q = reconcile info1 row q := by
  cases hm : info1 row.name with
  | none =>
    rw [reconcile_unmatched info1 row q hm] at hm2 ⊢
    rw [reconcile_matched info2 row q _ hm2]
    cases q
    rfl
  | some ex =>
    rw [reconcile_matched info1 row q ex hm] at hm2 ⊢
    rw [reconcile_matched info2 row q _ hm2]
    cases q
    rfl

/-- Membership is preserved by the sort. -/
theorem mem_sortByRatingDesc {p : ProcessedPlayer} {l : List ProcessedPlayer} :
    p ∈ sortByRatingDesc l ↔ p ∈ l :=
  List.mem_insertionSort ratingGe

/-- A successful `process_player` fixes the five protected fields of the
fresh record: name and englishName are the source name, position is the
source position, the two role fields are empty. -/
theorem process_player_some_shape (row : SourceRow) (q : ProcessedPlayer)
    (h : process_player row = some q) :
    q.name = row.name ∧ q.englishName = row.name ∧ q.position = row.position ∧
    q.playerType = "" ∧ q.rotationType = "" ∧ q.rating = row.overallAttribute := by
  obtain ⟨f1, f2, f3, f4, f5, f6, f7, f8, f9, _⟩ := process_player_ok_fields row q h
  rw [Option.isSome_iff_exists] at f1 f2 f3 f4 f5 f6 f7 f8 f9
  obtain ⟨pa, hpa⟩ := f1
  obtain ⟨pq, hpq⟩ := f2
  obtain ⟨pv, hpv⟩ := f3
  obtain ⟨sp, hsp⟩ := f4
  obtain ⟨ag, hag⟩ := f5
  obtain ⟨st, hst⟩ := f6
  obtain ⟨vt, hvt⟩ := f7
  obtain ⟨sm, hsm⟩ := f8
  obtain ⟨hu, hhu⟩ := f9
  rw [process_player_eq row pa pq pv sp ag st vt sm hu hpa hpq hpv hsp hag hst
    hvt hsm hhu] at h
  cases Option.some.inj h
  exact ⟨rfl, rfl, rfl, rfl, rfl, rfl⟩

/-- Every record of a successfully processed list arises from some
source row of the team. -/
theorem processPlayers_mem_rev (info : String → Option ProtectedData) :
    ∀ (players : List SourceRow) (ps : List ProcessedPlayer),
      processPlayers info players = some ps → ∀ p ∈ ps,
      ∃ row ∈ players, ∃ q, process_player row = some q ∧
        p = reconcile info row q := by
  intro players
  induction players with
  | nil =>
    intro ps h p hp
    cases Option.some.inj h
    exact absurd hp (List.not_mem_nil p)
  | cons r0 rest ih =>
    intro ps h p hp
    unfold processPlayers at h
    cases hq : process_player r0 with
    | none => rw [hq] at h; exact absurd h (by simp)
    | some q0 =>
      rw [hq] at h
      dsimp only at h
      cases hps : processPlayers info rest with
      | none => rw [hps] at h; exact absurd h (by simp)
      | some ps2 =>
        rw [hps] at h
        dsimp only at h
        cases Option.some.inj h
        rcases List.mem_cons.mp hp with rfl | hp2
        · exact ⟨r0, List.mem_cons_self _ _, q0, hq, rfl⟩
        · obtain ⟨row, hrow, q, hq2, hpeq⟩ := ih ps2 hps p hp2
          exact ⟨row, List.mem_cons_of_mem _ hrow, q, hq2, hpeq⟩

/-- If the two indices reconcile every row of the team identically, the
whole player loop produces the same list. -/
theorem processPlayers_congr (info2 info1 : String → Option ProtectedData) :
    ∀ (players : List SourceRow) (ps : List ProcessedPlayer),
      (∀ row ∈ players, ∀ q, process_player row = some q →
        reconcile info2 row q = reconcile info1 row q) →
      processPlayers info1 players = some ps →
      processPlayers info2 players = some ps := by
  intro players
  induction players with
  | nil => intro ps _ h; exact h
  | cons r0 rest ih =>
    intro ps hcong h
    unfold processPlayers at h ⊢
    cases hq : process_player r0 with
    | none => rw [hq] at h; exact absurd h (by simp)
    | some q =>
      rw [hq] at h
      dsimp only at h ⊢
      cases hps : processPlayers info1 rest with
      | none => rw [hps] at h; exact absurd h (by simp)
      | some ps2 =>
        rw [hps] at h
        dsimp only at h
        cases Option.some.inj h
        rw [ih ps2 (fun row hrow => hcong row (List.mem_cons_of_mem r0 hrow)) hps]
        dsimp only
        rw [hcong r0 (List.mem_cons_self r0 rest) q hq]

/-- When every row of the existing file has the `englishName` key
present, a successful index lookup returns a record whose `englishName`
is the looked-up key itself. -/
theorem index_englishName (existing : Option (List ExistingRow)) (s : String)
    (ex : ProtectedData)
    (hEN : ∀ rows, existing = some rows → ∀ er ∈ rows, er.englishName ≠ none)
    (h : read_existing_team_data existing s = some ex) :
    ex.englishName = s := by
  cases existing with
  | none => exact absurd h (by simp [read_existing_team_data])
  | some rows =>
    rcases foldl_indexStep_inv rows _ s ex h with ⟨hne, er, her, hkey, hprot⟩ | hinit
    · have hen := hEN rows rfl er her
      cases he : er.englishName with
      | none => exact absurd he hen
      | some e =>
        have hrk : rowKey er = e := by unfold rowKey; rw [he]
        rw [hrk] at hkey
        rw [← hprot]
        unfold protectedOf
        rw [he]
        exact hkey
    · exact absurd hinit (by simp)

/-- C5 (amended): rerunning a team on the files the first run wrote
reproduces the first run's output, provided the team's source rows have
pairwise-distinct display names and every row of a pre-existing output
file has the `englishName` key present.  (The unrestricted claim is
false: see the counterexample with duplicate names.) -/
theorem C5_second_run_reproduces (existing : Option (List ExistingRow))
    (players : List SourceRow) (out1 : List ProcessedPlayer)
    (hnames : players.Pairwise (fun a b => a.name ≠ b.name))
    (hEN : ∀ rows, existing = some rows → ∀ er ∈ rows, er.englishName ≠ none)
    (h1 : processTeam existing players = some out1) :
    processTeam (some (out1.map toExistingRow)) players = some out1 := by
  unfold processTeam at h1
  cases hpre : processPlayers (read_existing_team_data existing) players with
  | none => rw [hpre] at h1; exact absurd h1 (by simp)
  | some pre =>
    rw [hpre] at h1
    dsimp only at h1
    by_cases hall : (pre.all fun p => (pyInt p.rating).isSome) = true
    · rw [if_pos hall] at h1
      have hout : out1 = sortByRatingDesc pre := (Option.some.inj h1).symm
      subst hout
      have hsymm : Symmetric (fun a b : SourceRow => a.name ≠ b.name) :=
        fun x y hxy e => hxy e.symm
      have hval : ∀ a ∈ players, ∀ b ∈ players, a.name = b.name → a = b := by
        intro a ha b hb hab
        by_contra hne
        exact (List.Pairwise.forall hsymm hnames ha hb hne) hab
      have hen_elem : ∀ row ∈ players, ∀ q, process_player row = some q →
          (reconcile (read_existing_team_data existing) row q).englishName =
            row.name := by
        intro row hrow q hq
        cases hm : read_existing_team_data existing row.name with
        | none =>
          rw [reconcile_unmatched _ row q hm]
          exact (process_player_some_shape row q hq).2.1
        | some ex =>
          rw [reconcile_matched _ row q ex hm]
          exact index_englishName existing row.name ex hEN hm
      have hrec : ∀ row ∈ players, ∀ q, process_player row = some q →
          reconcile (read_existing_team_data
              (some ((sortByRatingDesc pre).map toExistingRow))) row q =
            reconcile (read_existing_team_data existing) row q := by
        intro row hrow q hq
        by_cases hNe : row.name = ""
        · rw [reconcile_unmatched _ row q
              (by rw [hNe]; exact read_existing_empty_string _),
            reconcile_unmatched _ row q
              (by rw [hNe]; exact read_existing_empty_string _)]
        · obtain ⟨q2, hq2, hp1mem⟩ := processPlayers_mem
            (read_existing_team_data existing) row players pre hrow hpre
          have hq2q : q2 = q := Option.some.inj (hq2.symm.trans hq)
          subst hq2q
          have hlook : read_existing_team_data
              (some ((sortByRatingDesc pre).map toExistingRow)) row.name =
              some (protectedOfPlayer
                (reconcile (read_existing_team_data existing) row q2)) := by
            show ((sortByRatingDesc pre).map toExistingRow).foldl indexStep
              (fun _ => none) row.name = _
            apply foldl_indexStep_const _ _ _ _ hNe
            · intro er her hkey
              obtain ⟨p, hpmem, hper⟩ := List.mem_map.mp her
              rw [← hper] at hkey
              rw [rowKey_toExistingRow] at hkey
              have hpmem2 : p ∈ pre := mem_sortByRatingDesc.mp hpmem
              obtain ⟨row2, hrow2, q3, hq3, hpeq⟩ := processPlayers_mem_rev
                (read_existing_team_data existing) players pre hpre p hpmem2
              have hn2 : row2.name = row.name := by
                rw [hpeq, hen_elem row2 hrow2 q3 hq3] at hkey
                exact hkey
              have hre : row2 = row := hval row2 hrow2 row hrow hn2
              subst hre
              have hqq : q3 = q2 := Option.some.inj (hq3.symm.trans hq2)
              subst hqq
              rw [← hper, protectedOf_toExistingRow, hpeq]
            · refine Or.inl ⟨toExistingRow
                (reconcile (read_existing_team_data existing) row q2), ?_, ?_⟩
              · exact List.mem_map_of_mem toExistingRow
                  (mem_sortByRatingDesc.mpr hp1mem)
              · rw [rowKey_toExistingRow]
                exact hen_elem row hrow q2 hq2
          exact reconcile_of_protected _ _ row q2 hlook
      have hpp2 := processPlayers_congr
        (read_existing_team_data (some ((sortByRatingDesc pre).map toExistingRow)))
        (read_existing_team_data existing) players pre hrec hpre
      unfold processTeam
      rw [hpp2]
      dsimp only
      rw [if_pos hall]
    · rw [if_neg hall] at h1
      exact absurd h1 (by simp)

/-- C5 counterexample: running the pipeline a second time on the same
input, with the output files left exactly as the first run wrote them,
does not reproduce the first run's files.  The first run writes the two
duplicate-named rows with positions "PG" and "C"; the reconciliation
index of the second run keeps only the last duplicate, so the second
run overwrites both positions with "C". -/
theorem C5_counterexample :
    writesOf (process_roster c5fs1 c5input) ≠
      writesOf (process_roster (fun _ => none) c5input) := by
  decide

/-- C5 amended witness: for a team with one (hence distinct-named) row
and no pre-existing file, rerunning on the first run's output
reproduces it exactly. -/
theorem C5_second_run_reproduces_witness :
    processTeam none [baseRow] = some c5wout ∧
    processTeam (some (c5wout.map toExistingRow)) [baseRow] = some c5wout :=
  ⟨rfl,
   C5_second_run_reproduces none [baseRow] c5wout (by simp)
     (fun rows h => Option.noConfusion h) rfl⟩
